import Mathlib

/-!
Verification of the pgx-v4 connection-provider adapter
(connection_provider.go and options.go).

The Go code is shallowly embedded as pure Lean functions over an explicit
registry state.  The external pgxpool library (ParseConfig, ConnectConfig,
Ping, Pool.Close) is modelled by an oracle structure Env: parsing is a
function of the connection string, construction and ping outcomes are
oracle answers, and pools are identified by natural-number ids drawn from
a fresh-id counter.  Pool.Close of the pgx driver is idempotent (safe to
call repeatedly), so the set of closed pools is modelled by an
insert-if-absent list.  Instrumentation counters (connection-string-builder
calls, ParseConfig calls, ConnectConfig attempts, successful constructions)
record exactly which external operations each code path performs.
-/

namespace PgdbtemplatePgxV4

/-- Pool configuration: the fields of pgxpool.Config that
connection_provider.go and options.go read or write.  int32 counts are
modelled as Int, durations as Int nanoseconds, and the AfterConnect hook
as an optional opaque identifier (none = nil function pointer). -/
structure PoolConfig where
  MaxConns : Int
  MinConns : Int
  MaxConnLifetime : Int
  MaxConnIdleTime : Int
  AfterConnect : Option Nat
deriving Repr, DecidableEq

/-- Zero value of pgxpool.Config, as left by the Go struct literal in
NewConnectionProvider. -/
def PoolConfig.zero : PoolConfig :=
  { MaxConns := 0, MinConns := 0, MaxConnLifetime := 0, MaxConnIdleTime := 0,
    AfterConnect := none }

/-- Immutable part of ConnectionProvider: the connection-string builder and
the option-configured pool settings.  The mutable map of pools lives in
RegistryState. -/
structure ConnectionProvider where
  connectionStringFunc : String → String
  poolConfig : PoolConfig

/-- Mutable registry state of a provider, together with the instrumentation
needed to state the spec's counting claims:
pools is the name-to-pool map (association list, unique keys);
nextPoolId is the fresh-id source for newly constructed pools;
closedPools is the set of pools on which Pool.Close has been invoked;
csfCalls counts invocations of the connection-string builder;
parseCalls counts pgxpool.ParseConfig invocations;
builtConfigs lists the configs passed to pgxpool.ConnectConfig (attempts);
constructions counts successful pool constructions. -/
structure RegistryState where
  pools : List (String × Nat)
  nextPoolId : Nat
  closedPools : List Nat
  csfCalls : Nat
  parseCalls : Nat
  builtConfigs : List PoolConfig
  constructions : Nat
deriving Repr, DecidableEq

/-- The empty registry of a freshly constructed provider. -/
def RegistryState.initial : RegistryState :=
  { pools := [], nextPoolId := 0, closedPools := [], csfCalls := 0,
    parseCalls := 0, builtConfigs := [], constructions := 0 }

/-- Map lookup, as the Go map read p.pools[databaseName]. -/
def lookupPool (l : List (String × Nat)) (name : String) : Option Nat :=
  (l.find? (fun pr => pr.1 == name)).map (fun pr => pr.2)

/-- Map update, as the Go map write p.pools[databaseName] = pool. -/
def mapInsert (l : List (String × Nat)) (name : String) (v : Nat) :
    List (String × Nat) :=
  (name, v) :: l.filter (fun pr => pr.1 != name)

/-- Map deletion, as the Go delete(p.pools, dbName). -/
def mapDelete (l : List (String × Nat)) (name : String) : List (String × Nat) :=
  l.filter (fun pr => pr.1 != name)

/-- Record that Pool.Close was invoked on pool x.  pgxpool's Close is
idempotent, so the closed set absorbs repeated closes. -/
def closeInsert (l : List Nat) (x : Nat) : List Nat :=
  if x ∈ l then l else x :: l

/-- Oracle for the external pgxpool library: the result of ParseConfig on a
connection string, of ConnectConfig on a config, and of the initial Ping.
Error payloads are the underlying error texts that fmt.Errorf wraps. -/
structure Env where
  parse : String → Except String PoolConfig
  connectConfig : PoolConfig → Except String Unit
  ping : Except String Unit

/-- The four error classes Connect can return, each carrying the underlying
error text (or the offending MaxConns value). -/
inductive ConnectErr where
  | parseErr (underlying : String)
  | maxConnsErr (got : Int)
  | poolErr (underlying : String)
  | pingErr (underlying : String)
deriving Repr, DecidableEq

/-- The rendered error message, following the fmt.Errorf formats in
connection_provider.go. -/
def ConnectErr.message : ConnectErr → String
  | parseErr u => "failed to parse connection string: " ++ u
  | maxConnsErr got => "MaxConns must be >= 1, got " ++ toString got
  | poolErr u => "failed to create connection pool: " ++ u
  | pingErr u => "failed to ping database: " ++ u

/-- The stage-identifying part of each message (what precedes the wrapped
underlying error). -/
def ConnectErr.stageTag : ConnectErr → String
  | parseErr _ => "failed to parse connection string: "
  | maxConnsErr _ => "MaxConns must be >= 1, got "
  | poolErr _ => "failed to create connection pool: "
  | pingErr _ => "failed to ping database: "

/-- A DatabaseConnection handle: the bound pool, whether the provider
back-reference is non-nil, and the database name it was created for. -/
structure DatabaseConnection where
  Pool : Nat
  tracked : Bool
  dbName : String
deriving Repr, DecidableEq

/-- Lines 66-78 of Connect: the effect of applying the provider's pool
settings to a parsed config.  MaxConns is copied only when nonzero; the
other four fields are copied unconditionally. -/
def appliedConfig (prov : ConnectionProvider) (config : PoolConfig) : PoolConfig :=
  let config1 :=
    if prov.poolConfig.MaxConns ≠ 0 then
      { config with MaxConns := prov.poolConfig.MaxConns }
    else config
  { config1 with
      MinConns := prov.poolConfig.MinConns,
      MaxConnLifetime := prov.poolConfig.MaxConnLifetime,
      MaxConnIdleTime := prov.poolConfig.MaxConnIdleTime,
      AfterConnect := prov.poolConfig.AfterConnect }

/-- Lines 59-97 of Connect: the pool-building section run under the write
lock after the double-check missed.  Builds the connection string, parses
it, validates and applies the provider's pool settings, constructs the
pool, pings it, and registers it. -/
def connectBuild (prov : ConnectionProvider) (env : Env) (st : RegistryState)
    (databaseName : String) : RegistryState × Except ConnectErr DatabaseConnection :=
  let connString := prov.connectionStringFunc databaseName
  let st1 : RegistryState :=
    { st with csfCalls := st.csfCalls + 1, parseCalls := st.parseCalls + 1 }
  match env.parse connString with
  | Except.error u => (st1, Except.error (ConnectErr.parseErr u))
  | Except.ok config =>
    if prov.poolConfig.MaxConns ≠ 0 ∧ prov.poolConfig.MaxConns < 1 then
      (st1, Except.error (ConnectErr.maxConnsErr prov.poolConfig.MaxConns))
    else
      let config2 := appliedConfig prov config
      let st2 := { st1 with builtConfigs := st1.builtConfigs ++ [config2] }
      match env.connectConfig config2 with
      | Except.error u => (st2, Except.error (ConnectErr.poolErr u))
      | Except.ok _ =>
        let pool := st2.nextPoolId
        let st3 := { st2 with nextPoolId := st2.nextPoolId + 1,
                              constructions := st2.constructions + 1 }
        match env.ping with
        | Except.error u =>
          ({ st3 with closedPools := closeInsert st3.closedPools pool },
           Except.error (ConnectErr.pingErr u))
        | Except.ok _ =>
          ({ st3 with pools := mapInsert st3.pools databaseName pool },
           Except.ok { Pool := pool, tracked := true, dbName := databaseName })

/-- Lines 51-97 of Connect: the write-locked critical section, starting
with the double-check of the map. -/
def connectLocked (prov : ConnectionProvider) (env : Env) (st : RegistryState)
    (databaseName : String) : RegistryState × Except ConnectErr DatabaseConnection :=
  match lookupPool st.pools databaseName with
  | some pool =>
    (st, Except.ok { Pool := pool, tracked := true, dbName := databaseName })
  | none => connectBuild prov env st databaseName

/-- ConnectionProvider.Connect: the read-locked fast-path lookup followed,
on a miss, by the write-locked critical section. -/
def ConnectionProvider.Connect (prov : ConnectionProvider) (env : Env)
    (st : RegistryState) (databaseName : String) :
    RegistryState × Except ConnectErr DatabaseConnection :=
  match lookupPool st.pools databaseName with
  | some pool =>
    (st, Except.ok { Pool := pool, tracked := true, dbName := databaseName })
  | none => connectLocked prov env st databaseName

/-- The sequence of Pool.Close invocations the provider-wide Close performs:
one per entry of the map, in map order. -/
def ConnectionProvider.closeCalls (st : RegistryState) : List Nat :=
  st.pools.map (fun pr => pr.2)

/-- ConnectionProvider.Close: closes every registered pool and replaces the
map with a fresh empty one. -/
def ConnectionProvider.Close (st : RegistryState) : RegistryState :=
  { st with
      closedPools := List.foldl closeInsert st.closedPools
        (ConnectionProvider.closeCalls st),
      pools := [] }

/-- DatabaseConnection.Close: without a provider back-reference it closes
the pool directly; with one it closes the pool and deletes the map entry
for its database name.  Returns the Go error value (always nil = none). -/
def DatabaseConnection.Close (c : DatabaseConnection) (st : RegistryState) :
    RegistryState × Option String :=
  if c.tracked = false then
    ({ st with closedPools := closeInsert st.closedPools c.Pool }, none)
  else
    ({ st with closedPools := closeInsert st.closedPools c.Pool,
               pools := mapDelete st.pools c.dbName }, none)

/-- The functional options of options.go.  WithPoolConfig carries a whole
config; each other option carries the single field it sets (WithAfterConnect
carries the hook identifier, possibly nil). -/
inductive ConnectionOption where
  | WithPoolConfig (config : PoolConfig)
  | WithMaxConns (maxConns : Int)
  | WithMinConns (minConns : Int)
  | WithMaxConnLifetime (d : Int)
  | WithMaxConnIdleTime (d : Int)
  | WithAfterConnect (afterConnect : Option Nat)
deriving Repr, DecidableEq

/-- Application of one option to the provider, as each closure in
options.go mutates p.poolConfig. -/
def applyOption (p : ConnectionProvider) : ConnectionOption → ConnectionProvider
  | ConnectionOption.WithPoolConfig config => { p with poolConfig := config }
  | ConnectionOption.WithMaxConns n =>
    { p with poolConfig := { p.poolConfig with MaxConns := n } }
  | ConnectionOption.WithMinConns n =>
    { p with poolConfig := { p.poolConfig with MinConns := n } }
  | ConnectionOption.WithMaxConnLifetime d =>
    { p with poolConfig := { p.poolConfig with MaxConnLifetime := d } }
  | ConnectionOption.WithMaxConnIdleTime d =>
    { p with poolConfig := { p.poolConfig with MaxConnIdleTime := d } }
  | ConnectionOption.WithAfterConnect h =>
    { p with poolConfig := { p.poolConfig with AfterConnect := h } }

/-- NewConnectionProvider: builds the provider with the zero pool config and
applies the options in order. -/
def NewConnectionProvider (connectionStringFunc : String → String)
    (opts : List ConnectionOption) : ConnectionProvider :=
  List.foldl applyOption
    { connectionStringFunc := connectionStringFunc, poolConfig := PoolConfig.zero }
    opts

instance {ε α : Type} [DecidableEq ε] [DecidableEq α] : DecidableEq (Except ε α) :=
  fun x y =>
    match x, y with
    | Except.ok a, Except.ok b =>
      if h : a = b then Decidable.isTrue (by rw [h])
      else Decidable.isFalse (by intro hc; injection hc; exact h (by assumption))
    | Except.ok _, Except.error _ => Decidable.isFalse (by intro hc; cases hc)
    | Except.error _, Except.ok _ => Decidable.isFalse (by intro hc; cases hc)
    | Except.error e, Except.error f =>
      if h : e = f then Decidable.isTrue (by rw [h])
      else Decidable.isFalse (by intro hc; injection hc; exact h (by assumption))

/-- Phase of one caller executing Connect concurrently with others: it has
not yet taken the read lock, or its read-locked lookup missed and it is
waiting for the write lock, or it has returned with a result. -/
inductive CallerPhase where
  | start
  | missed
  | done (res : Except ConnectErr DatabaseConnection)
deriving Repr, DecidableEq

/-- Global state of N concurrent Connect calls for one database name:
the shared registry plus each caller's phase. -/
structure SysState where
  shared : RegistryState
  callers : List CallerPhase
deriving Repr, DecidableEq

/-- One atomic step of caller i.  The RWMutex serializes the read-locked
lookup and the write-locked critical section, so each is one atomic step;
a step of a finished (or out-of-range) caller does nothing. -/
def sysStep (prov : ConnectionProvider) (env : Env) (databaseName : String)
    (s : SysState) (i : Nat) : SysState :=
  match s.callers.get? i with
  | none => s
  | some CallerPhase.start =>
    match lookupPool s.shared.pools databaseName with
    | some pool =>
      { s with callers := s.callers.set i (CallerPhase.done
          (Except.ok { Pool := pool, tracked := true, dbName := databaseName })) }
    | none => { s with callers := s.callers.set i CallerPhase.missed }
  | some CallerPhase.missed =>
    let out := connectLocked prov env s.shared databaseName
    { shared := out.1, callers := s.callers.set i (CallerPhase.done out.2) }
  | some (CallerPhase.done _) => s

/-- Runs a schedule: an arbitrary interleaving of caller steps. -/
def sysRun (prov : ConnectionProvider) (env : Env) (databaseName : String)
    (s : SysState) (sched : List Nat) : SysState :=
  List.foldl (sysStep prov env databaseName) s sched

/-- The oracle answers under which first-time pool creation succeeds:
the connection string for the name parses, the provider's MaxConns setting
passes validation, and construction and ping succeed. -/
def EnvSuccess (prov : ConnectionProvider) (env : Env) (databaseName : String) : Prop :=
  (∃ config, env.parse (prov.connectionStringFunc databaseName) = Except.ok config) ∧
  ¬(prov.poolConfig.MaxConns ≠ 0 ∧ prov.poolConfig.MaxConns < 1) ∧
  (∀ config, env.connectConfig config = Except.ok ()) ∧
  env.ping = Except.ok ()

/-- Registry well-formedness: every registered pool id is below the fresh-id
counter and no pool is registered under two names. -/
def PoolIdsOk (st : RegistryState) : Prop :=
  (∀ pr ∈ st.pools, pr.2 < st.nextPoolId) ∧
  (st.pools.map (fun pr => pr.2)).Nodup

/-- The stage at which a Connect error arose: 0 = configuration parsing,
1 = option validation, 2 = pool construction, 3 = liveness ping. -/
def ConnectErr.stage : ConnectErr → Nat
  | parseErr _ => 0
  | maxConnsErr _ => 1
  | poolErr _ => 2
  | pingErr _ => 3

/-- The value the last option of the list writes to a given field (selected
by the per-field projection f), if any option writes it. -/
def lastSet {α : Type} (f : ConnectionOption → Option α) :
    List ConnectionOption → Option α
  | [] => none
  | o :: rest =>
    match lastSet f rest with
    | some v => some v
    | none => f o

/-- The MaxConns value an option writes, if it writes that field. -/
def setsMaxConns : ConnectionOption → Option Int
  | ConnectionOption.WithPoolConfig c => some c.MaxConns
  | ConnectionOption.WithMaxConns n => some n
  | _ => none

/-- The MinConns value an option writes, if it writes that field. -/
def setsMinConns : ConnectionOption → Option Int
  | ConnectionOption.WithPoolConfig c => some c.MinConns
  | ConnectionOption.WithMinConns n => some n
  | _ => none

/-- The MaxConnLifetime value an option writes, if it writes that field. -/
def setsMaxConnLifetime : ConnectionOption → Option Int
  | ConnectionOption.WithPoolConfig c => some c.MaxConnLifetime
  | ConnectionOption.WithMaxConnLifetime d => some d
  | _ => none

/-- The MaxConnIdleTime value an option writes, if it writes that field. -/
def setsMaxConnIdleTime : ConnectionOption → Option Int
  | ConnectionOption.WithPoolConfig c => some c.MaxConnIdleTime
  | ConnectionOption.WithMaxConnIdleTime d => some d
  | _ => none

/-- The AfterConnect hook an option writes, if it writes that field. -/
def setsAfterConnect : ConnectionOption → Option (Option Nat)
  | ConnectionOption.WithPoolConfig c => some c.AfterConnect
  | ConnectionOption.WithAfterConnect h => some h
  | _ => none

/-- Oracle on which every external pgxpool call succeeds; parsing yields the
zero config. -/
def okEnv : Env :=
  { parse := fun _ => Except.ok PoolConfig.zero,
    connectConfig := fun _ => Except.ok (),
    ping := Except.ok () }

/-- Oracle on which ParseConfig rejects every connection string. -/
def parseFailEnv : Env :=
  { parse := fun _ => Except.error "invalid uri scheme",
    connectConfig := fun _ => Except.ok (),
    ping := Except.ok () }

/-- Oracle on which pool construction fails. -/
def poolFailEnv : Env :=
  { parse := fun _ => Except.ok PoolConfig.zero,
    connectConfig := fun _ => Except.error "connection refused",
    ping := Except.ok () }

/-- Oracle on which the initial ping fails. -/
def pingFailEnv : Env :=
  { parse := fun _ => Except.ok PoolConfig.zero,
    connectConfig := fun _ => Except.ok (),
    ping := Except.error "connection reset" }

/-- A concrete connection-string builder for witnesses. -/
def csfW : String → String := fun dbName => "postgres://localhost/" ++ dbName

/-- A provider with default options. -/
def provW : ConnectionProvider := NewConnectionProvider csfW []

/-- A provider configured with MaxConns = -1. -/
def provNegW : ConnectionProvider :=
  NewConnectionProvider csfW [ConnectionOption.WithMaxConns (-1)]

/-- The successor registry state after a successful first-time pool build
for databaseName, starting from st. -/
def buildSuccessState (prov : ConnectionProvider) (st : RegistryState)
    (databaseName : String) (config : PoolConfig) : RegistryState :=
  { pools := mapInsert st.pools databaseName st.nextPoolId,
    nextPoolId := st.nextPoolId + 1,
    closedPools := st.closedPools,
    csfCalls := st.csfCalls + 1,
    parseCalls := st.parseCalls + 1,
    builtConfigs := st.builtConfigs ++ [appliedConfig prov config],
    constructions := st.constructions + 1 }

/-- The registry state after a successful first-time Connect for
databaseName followed by Close of the returned handle. -/
def closedState (prov : ConnectionProvider) (st : RegistryState)
    (databaseName : String) (config : PoolConfig) : RegistryState :=
  { pools := mapDelete (mapInsert st.pools databaseName st.nextPoolId) databaseName,
    nextPoolId := st.nextPoolId + 1,
    closedPools := closeInsert st.closedPools st.nextPoolId,
    csfCalls := st.csfCalls + 1,
    parseCalls := st.parseCalls + 1,
    builtConfigs := st.builtConfigs ++ [appliedConfig prov config],
    constructions := st.constructions + 1 }

/-- Invariant of the concurrent-Connect system for one previously unseen
database name: either nobody has built yet (the registry is still st0 and
every caller is pre-build), or exactly one build happened (the registry is
the one-build successor state and every finished caller got the handle to
the single pool st0.nextPoolId). -/
def SysInv (prov : ConnectionProvider) (env : Env) (databaseName : String)
    (st0 : RegistryState) (config : PoolConfig) (s : SysState) : Prop :=
  (s.shared = st0 ∧ ∀ ph ∈ s.callers,
      ph = CallerPhase.start ∨ ph = CallerPhase.missed) ∨
  (s.shared = buildSuccessState prov st0 databaseName config ∧
    ∀ ph ∈ s.callers,
      ph = CallerPhase.start ∨ ph = CallerPhase.missed ∨
      ph = CallerPhase.done (Except.ok
        { Pool := st0.nextPoolId, tracked := true, dbName := databaseName }))

theorem lookupPool_mapInsert (l : List (String × Nat)) (name : String) (v : Nat) :
    lookupPool (mapInsert l name v) name = some v := by
  simp [lookupPool, mapInsert, List.find?]

theorem mem_closeInsert (l : List Nat) (x y : Nat) :
    y ∈ closeInsert l x ↔ y = x ∨ y ∈ l := by
  unfold closeInsert
  split
  · constructor
    · intro h; exact Or.inr h
    · rintro (rfl | h)
      · assumption
      · exact h
  · simp [List.mem_cons]

theorem closeInsert_of_mem (l : List Nat) (x : Nat) (h : x ∈ l) :
    closeInsert l x = l := by
  simp [closeInsert, h]

theorem mapDelete_of_lookup_none (l : List (String × Nat)) (name : String)
    (h : lookupPool l name = none) : mapDelete l name = l := by
  rw [mapDelete, List.filter_eq_self]
  intro pr hpr
  simp only [lookupPool, Option.map_eq_none', List.find?_eq_none] at h
  simpa using h pr hpr

theorem lookupPool_mapDelete (l : List (String × Nat)) (name : String) :
    lookupPool (mapDelete l name) name = none := by
  simp only [lookupPool, mapDelete, Option.map_eq_none', List.find?_eq_none]
  intro pr hpr
  have := List.of_mem_filter hpr
  simp only [bne_iff_ne, ne_eq] at this
  simpa using this

theorem connectBuild_parse_error (prov : ConnectionProvider) (env : Env)
    (st : RegistryState) (databaseName : String) (u : String)
    (hp : env.parse (prov.connectionStringFunc databaseName) = Except.error u) :
    connectBuild prov env st databaseName =
      ({ st with csfCalls := st.csfCalls + 1, parseCalls := st.parseCalls + 1 },
       Except.error (ConnectErr.parseErr u)) := by
  simp only [connectBuild, hp]

theorem connectBuild_maxConns_error (prov : ConnectionProvider) (env : Env)
    (st : RegistryState) (databaseName : String) (config : PoolConfig)
    (hp : env.parse (prov.connectionStringFunc databaseName) = Except.ok config)
    (h1 : prov.poolConfig.MaxConns ≠ 0) (h2 : prov.poolConfig.MaxConns < 1) :
    connectBuild prov env st databaseName =
      ({ st with csfCalls := st.csfCalls + 1, parseCalls := st.parseCalls + 1 },
       Except.error (ConnectErr.maxConnsErr prov.poolConfig.MaxConns)) := by
  simp only [connectBuild, hp]
  rw [if_pos ⟨h1, h2⟩]

theorem connectBuild_pool_error (prov : ConnectionProvider) (env : Env)
    (st : RegistryState) (databaseName : String) (config : PoolConfig) (u : String)
    (hp : env.parse (prov.connectionStringFunc databaseName) = Except.ok config)
    (hv : ¬(prov.poolConfig.MaxConns ≠ 0 ∧ prov.poolConfig.MaxConns < 1))
    (hc : env.connectConfig (appliedConfig prov config) = Except.error u) :
    connectBuild prov env st databaseName =
      ({ st with csfCalls := st.csfCalls + 1, parseCalls := st.parseCalls + 1,
                 builtConfigs := st.builtConfigs ++ [appliedConfig prov config] },
       Except.error (ConnectErr.poolErr u)) := by
  simp only [connectBuild, hp]
  rw [if_neg hv]
  simp only [hc]

theorem connectBuild_ping_error (prov : ConnectionProvider) (env : Env)
    (st : RegistryState) (databaseName : String) (config : PoolConfig) (u : String)
    (hp : env.parse (prov.connectionStringFunc databaseName) = Except.ok config)
    (hv : ¬(prov.poolConfig.MaxConns ≠ 0 ∧ prov.poolConfig.MaxConns < 1))
    (hc : env.connectConfig (appliedConfig prov config) = Except.ok ())
    (hg : env.ping = Except.error u) :
    connectBuild prov env st databaseName =
      ({ st with csfCalls := st.csfCalls + 1, parseCalls := st.parseCalls + 1,
                 builtConfigs := st.builtConfigs ++ [appliedConfig prov config],
                 nextPoolId := st.nextPoolId + 1,
                 constructions := st.constructions + 1,
                 closedPools := closeInsert st.closedPools st.nextPoolId },
       Except.error (ConnectErr.pingErr u)) := by
  simp only [connectBuild, hp]
  rw [if_neg hv]
  simp only [hc, hg]

theorem connectBuild_ok (prov : ConnectionProvider) (env : Env)
    (st : RegistryState) (databaseName : String) (config : PoolConfig)
    (hp : env.parse (prov.connectionStringFunc databaseName) = Except.ok config)
    (hv : ¬(prov.poolConfig.MaxConns ≠ 0 ∧ prov.poolConfig.MaxConns < 1))
    (hc : env.connectConfig (appliedConfig prov config) = Except.ok ())
    (hg : env.ping = Except.ok ()) :
    connectBuild prov env st databaseName =
      (buildSuccessState prov st databaseName config,
       Except.ok { Pool := st.nextPoolId, tracked := true, dbName := databaseName }) := by
  simp only [connectBuild, hp]
  rw [if_neg hv]
  simp only [hc, hg, buildSuccessState]

theorem connectLocked_hit (prov : ConnectionProvider) (env : Env)
    (st : RegistryState) (databaseName : String) (pool : Nat)
    (h : lookupPool st.pools databaseName = some pool) :
    connectLocked prov env st databaseName =
      (st, Except.ok { Pool := pool, tracked := true, dbName := databaseName }) := by
  simp only [connectLocked, h]

theorem connectLocked_miss (prov : ConnectionProvider) (env : Env)
    (st : RegistryState) (databaseName : String)
    (h : lookupPool st.pools databaseName = none) :
    connectLocked prov env st databaseName = connectBuild prov env st databaseName := by
  simp only [connectLocked, h]

theorem Connect_hit (prov : ConnectionProvider) (env : Env)
    (st : RegistryState) (databaseName : String) (pool : Nat)
    (h : lookupPool st.pools databaseName = some pool) :
    ConnectionProvider.Connect prov env st databaseName =
      (st, Except.ok { Pool := pool, tracked := true, dbName := databaseName }) := by
  simp only [ConnectionProvider.Connect, h]

theorem Connect_miss (prov : ConnectionProvider) (env : Env)
    (st : RegistryState) (databaseName : String)
    (h : lookupPool st.pools databaseName = none) :
    ConnectionProvider.Connect prov env st databaseName =
      connectBuild prov env st databaseName := by
  simp only [ConnectionProvider.Connect, connectLocked, h]

theorem Connect_ok_of_envSuccess (prov : ConnectionProvider) (env : Env)
    (st : RegistryState) (databaseName : String) (config : PoolConfig)
    (hp : env.parse (prov.connectionStringFunc databaseName) = Except.ok config)
    (hv : ¬(prov.poolConfig.MaxConns ≠ 0 ∧ prov.poolConfig.MaxConns < 1))
    (hc : ∀ c, env.connectConfig c = Except.ok ())
    (hg : env.ping = Except.ok ())
    (h0 : lookupPool st.pools databaseName = none) :
    ConnectionProvider.Connect prov env st databaseName =
      (buildSuccessState prov st databaseName config,
       Except.ok { Pool := st.nextPoolId, tracked := true, dbName := databaseName }) := by
  rw [Connect_miss prov env st databaseName h0]
  exact connectBuild_ok prov env st databaseName config hp hv (hc _) hg

theorem stageTag_determines_stage (e1 e2 : ConnectErr)
    (h : e1.stageTag = e2.stageTag) : e1.stage = e2.stage := by
  cases e1 <;> cases e2 <;> first
    | rfl
    | (simp only [ConnectErr.stageTag] at h; exact absurd h (by decide))

theorem Connect_ok_inv (prov : ConnectionProvider) (env : Env)
    (st : RegistryState) (databaseName : String) (st' : RegistryState)
    (c : DatabaseConnection)
    (h0 : lookupPool st.pools databaseName = none)
    (hok : ConnectionProvider.Connect prov env st databaseName =
      (st', Except.ok c)) :
    ∃ config, env.parse (prov.connectionStringFunc databaseName) = Except.ok config ∧
      st' = buildSuccessState prov st databaseName config ∧
      c = { Pool := st.nextPoolId, tracked := true, dbName := databaseName } := by
  rw [Connect_miss prov env st databaseName h0] at hok
  cases hparse : env.parse (prov.connectionStringFunc databaseName) with
  | error u =>
    rw [connectBuild_parse_error prov env st databaseName u hparse] at hok
    simp at hok
  | ok config =>
    by_cases hv : prov.poolConfig.MaxConns ≠ 0 ∧ prov.poolConfig.MaxConns < 1
    · rw [connectBuild_maxConns_error prov env st databaseName config hparse
        hv.1 hv.2] at hok
      simp at hok
    · cases hcc : env.connectConfig (appliedConfig prov config) with
      | error u =>
        rw [connectBuild_pool_error prov env st databaseName config u hparse
          hv hcc] at hok
        simp at hok
      | ok uu =>
        cases uu
        cases hping : env.ping with
        | error u =>
          rw [connectBuild_ping_error prov env st databaseName config u hparse
            hv hcc hping] at hok
          simp at hok
        | ok uu2 =>
          cases uu2
          rw [connectBuild_ok prov env st databaseName config hparse
            hv hcc hping] at hok
          injection hok with h1 h2
          injection h2 with h2
          exact ⟨config, rfl, h1.symm, h2.symm⟩

/-- C2: if a pool is already registered under databaseName, Connect returns
a handle bound to it with the registry state unchanged — so the
connection-string builder, ParseConfig, and ConnectConfig instrumentation
counters are untouched; and after a successful first-time Connect, a second
Connect for the same name reuses the pool the first call registered. -/
theorem connect_reuses_existing_pool :
    (∀ (prov : ConnectionProvider) (env : Env) (st : RegistryState)
        (databaseName : String) (pool : Nat),
      lookupPool st.pools databaseName = some pool →
      ConnectionProvider.Connect prov env st databaseName =
        (st, Except.ok { Pool := pool, tracked := true, dbName := databaseName })) ∧
    (∀ (prov : ConnectionProvider) (env : Env) (st st1 : RegistryState)
        (databaseName : String) (c : DatabaseConnection),
      lookupPool st.pools databaseName = none →
      ConnectionProvider.Connect prov env st databaseName = (st1, Except.ok c) →
      ConnectionProvider.Connect prov env st1 databaseName =
        (st1, Except.ok { Pool := c.Pool, tracked := true, dbName := databaseName })) := by
  constructor
  · intro prov env st databaseName pool h
    exact Connect_hit prov env st databaseName pool h
  · intro prov env st st1 databaseName c h0 hok
    obtain ⟨config, _, hst, hc⟩ := Connect_ok_inv prov env st databaseName st1 c h0 hok
    subst hst
    subst hc
    exact Connect_hit prov env _ databaseName st.nextPoolId
      (lookupPool_mapInsert st.pools databaseName st.nextPoolId)

theorem connect_reuses_existing_pool_witness :
    ConnectionProvider.Connect provW okEnv
      { RegistryState.initial with pools := [("postgres", 7)] } "postgres" =
      ({ RegistryState.initial with pools := [("postgres", 7)] },
       Except.ok { Pool := 7, tracked := true, dbName := "postgres" }) :=
  connect_reuses_existing_pool.1 provW okEnv
    { RegistryState.initial with pools := [("postgres", 7)] } "postgres" 7 (by rfl)

/-- C3: on any Connect failure the caller gets an error (and hence no
connection, the Except.error branch), the registry map is unchanged and has
no entry for the requested name, the error message carries its
stage-identifying tag (and the tag determines the stage), every pool
constructed by the failed call has been closed, and in the ping-failure
case specifically the freshly constructed pool was closed before return. -/
theorem connect_failure_is_clean (prov : ConnectionProvider) (env : Env)
    (st : RegistryState) (databaseName : String) (st' : RegistryState)
    (e : ConnectErr)
    (h : ConnectionProvider.Connect prov env st databaseName =
      (st', Except.error e)) :
    st'.pools = st.pools ∧
    lookupPool st'.pools databaseName = none ∧
    (∃ rest, e.message = e.stageTag ++ rest) ∧
    (∀ e1 e2 : ConnectErr, e1.stageTag = e2.stageTag → e1.stage = e2.stage) ∧
    (∀ pid, st.nextPoolId ≤ pid → pid < st'.nextPoolId → pid ∈ st'.closedPools) ∧
    (∀ u, e = ConnectErr.pingErr u →
        st.nextPoolId ∈ st'.closedPools ∧
        st'.constructions = st.constructions + 1) := by
  cases hlk : lookupPool st.pools databaseName with
  | some pool =>
    rw [Connect_hit prov env st databaseName pool hlk] at h
    simp at h
  | none =>
    rw [Connect_miss prov env st databaseName hlk] at h
    cases hparse : env.parse (prov.connectionStringFunc databaseName) with
    | error u =>
      rw [connectBuild_parse_error prov env st databaseName u hparse] at h
      injection h with h1 h2
      injection h2 with h2
      subst h1
      subst h2
      refine ⟨rfl, hlk, ⟨u, rfl⟩, fun e1 e2 => stageTag_determines_stage e1 e2,
        ?_, ?_⟩
      · intro pid hp1 hp2
        exact absurd (Nat.lt_of_lt_of_le hp2 hp1) (Nat.lt_irrefl pid)
      · intro u' hu
        exact ConnectErr.noConfusion hu
    | ok config =>
      by_cases hv : prov.poolConfig.MaxConns ≠ 0 ∧ prov.poolConfig.MaxConns < 1
      · rw [connectBuild_maxConns_error prov env st databaseName config hparse
          hv.1 hv.2] at h
        injection h with h1 h2
        injection h2 with h2
        subst h1
        subst h2
        refine ⟨rfl, hlk, ⟨toString prov.poolConfig.MaxConns, rfl⟩,
          fun e1 e2 => stageTag_determines_stage e1 e2, ?_, ?_⟩
        · intro pid hp1 hp2
          exact absurd (Nat.lt_of_lt_of_le hp2 hp1) (Nat.lt_irrefl pid)
        · intro u' hu
          exact ConnectErr.noConfusion hu
      · cases hcc : env.connectConfig (appliedConfig prov config) with
        | error u =>
          rw [connectBuild_pool_error prov env st databaseName config u hparse
            hv hcc] at h
          injection h with h1 h2
          injection h2 with h2
          subst h1
          subst h2
          refine ⟨rfl, hlk, ⟨u, rfl⟩,
            fun e1 e2 => stageTag_determines_stage e1 e2, ?_, ?_⟩
          · intro pid hp1 hp2
            exact absurd (Nat.lt_of_lt_of_le hp2 hp1) (Nat.lt_irrefl pid)
          · intro u' hu
            exact ConnectErr.noConfusion hu
        | ok uu =>
          cases uu
          cases hping : env.ping with
          | error u =>
            rw [connectBuild_ping_error prov env st databaseName config u hparse
              hv hcc hping] at h
            injection h with h1 h2
            injection h2 with h2
            subst h1
            subst h2
            refine ⟨rfl, hlk, ⟨u, rfl⟩,
              fun e1 e2 => stageTag_determines_stage e1 e2, ?_, ?_⟩
            · intro pid hp1 hp2
              have hpe : pid = st.nextPoolId :=
                Nat.le_antisymm (Nat.lt_succ_iff.mp hp2) hp1
              rw [hpe]
              exact (mem_closeInsert st.closedPools st.nextPoolId
                st.nextPoolId).mpr (Or.inl rfl)
            · intro u' _
              exact ⟨(mem_closeInsert st.closedPools st.nextPoolId
                st.nextPoolId).mpr (Or.inl rfl), rfl⟩
          | ok uu2 =>
            cases uu2
            rw [connectBuild_ok prov env st databaseName config hparse
              hv hcc hping] at h
            simp at h

theorem connect_failure_is_clean_witness :
    lookupPool ((ConnectionProvider.Connect provW pingFailEnv
      RegistryState.initial "postgres").1).pools "postgres" = none ∧
    0 ∈ ((ConnectionProvider.Connect provW pingFailEnv
      RegistryState.initial "postgres").1).closedPools := by
  have h := connect_failure_is_clean provW pingFailEnv RegistryState.initial
    "postgres"
    (ConnectionProvider.Connect provW pingFailEnv RegistryState.initial "postgres").1
    (ConnectErr.pingErr "connection reset") (by rfl)
  exact ⟨h.2.1, (h.2.2.2.2.2 "connection reset" rfl).1⟩

/-- C4: a nonzero MaxConns below 1 makes Connect fail with the validation
error while only the builder/parse counters move — no config is handed to
ConnectConfig and no pool is constructed or pinged; MaxConns = 0 is treated
as unset, the build succeeds and the config keeps the parsed (driver
default) MaxConns; zero lifetime and idle-time values are accepted, the
build succeeds and they are copied as zero (unlimited). -/
theorem maxConns_validation_and_zero_fields :
    (∀ (prov : ConnectionProvider) (env : Env) (st : RegistryState)
        (databaseName : String) (config : PoolConfig),
      lookupPool st.pools databaseName = none →
      env.parse (prov.connectionStringFunc databaseName) = Except.ok config →
      prov.poolConfig.MaxConns ≠ 0 → prov.poolConfig.MaxConns < 1 →
      ConnectionProvider.Connect prov env st databaseName =
        ({ st with csfCalls := st.csfCalls + 1, parseCalls := st.parseCalls + 1 },
         Except.error (ConnectErr.maxConnsErr prov.poolConfig.MaxConns))) ∧
    (∀ (prov : ConnectionProvider) (env : Env) (st : RegistryState)
        (databaseName : String) (config : PoolConfig),
      prov.poolConfig.MaxConns = 0 →
      lookupPool st.pools databaseName = none →
      env.parse (prov.connectionStringFunc databaseName) = Except.ok config →
      (∀ c, env.connectConfig c = Except.ok ()) →
      env.ping = Except.ok () →
      ConnectionProvider.Connect prov env st databaseName =
        (buildSuccessState prov st databaseName config,
         Except.ok { Pool := st.nextPoolId, tracked := true, dbName := databaseName }) ∧
      (appliedConfig prov config).MaxConns = config.MaxConns) ∧
    (∀ (prov : ConnectionProvider) (env : Env) (st : RegistryState)
        (databaseName : String) (config : PoolConfig),
      prov.poolConfig.MaxConnLifetime = 0 →
      prov.poolConfig.MaxConnIdleTime = 0 →
      ¬(prov.poolConfig.MaxConns ≠ 0 ∧ prov.poolConfig.MaxConns < 1) →
      lookupPool st.pools databaseName = none →
      env.parse (prov.connectionStringFunc databaseName) = Except.ok config →
      (∀ c, env.connectConfig c = Except.ok ()) →
      env.ping = Except.ok () →
      ConnectionProvider.Connect prov env st databaseName =
        (buildSuccessState prov st databaseName config,
         Except.ok { Pool := st.nextPoolId, tracked := true, dbName := databaseName }) ∧
      (appliedConfig prov config).MaxConnLifetime = 0 ∧
      (appliedConfig prov config).MaxConnIdleTime = 0) := by
  refine ⟨?_, ?_, ?_⟩
  · intro prov env st databaseName config h0 hp h1 h2
    rw [Connect_miss prov env st databaseName h0]
    exact connectBuild_maxConns_error prov env st databaseName config hp h1 h2
  · intro prov env st databaseName config hz h0 hp hc hg
    have hv : ¬(prov.poolConfig.MaxConns ≠ 0 ∧ prov.poolConfig.MaxConns < 1) :=
      fun hcon => hcon.1 hz
    refine ⟨Connect_ok_of_envSuccess prov env st databaseName config hp hv hc hg h0, ?_⟩
    simp [appliedConfig, hz]
  · intro prov env st databaseName config hl hi hv h0 hp hc hg
    refine ⟨Connect_ok_of_envSuccess prov env st databaseName config hp hv hc hg h0, ?_, ?_⟩
    · simp [appliedConfig, hl]
    · simp [appliedConfig, hi]

theorem maxConns_validation_witness :
    ConnectionProvider.Connect provNegW okEnv RegistryState.initial "postgres" =
      ({ RegistryState.initial with csfCalls := 1, parseCalls := 1 },
       Except.error (ConnectErr.maxConnsErr (-1))) ∧
    ConnectionProvider.Connect provW okEnv RegistryState.initial "postgres" =
      (buildSuccessState provW RegistryState.initial "postgres" PoolConfig.zero,
       Except.ok { Pool := 0, tracked := true, dbName := "postgres" }) := by
  constructor
  · exact maxConns_validation_and_zero_fields.1 provNegW okEnv
      RegistryState.initial "postgres" PoolConfig.zero rfl rfl
      (by decide) (by decide)
  · exact (maxConns_validation_and_zero_fields.2.1 provW okEnv
      RegistryState.initial "postgres" PoolConfig.zero rfl rfl rfl
      (fun c => rfl) rfl).1

/-- C10: on a successful first-time Connect, the config handed to
ConnectConfig is the parsed config with the provider's MinConns,
MaxConnLifetime, MaxConnIdleTime and AfterConnect copied over
unconditionally (zero or nil included), while MaxConns is copied only when
the provider's value is nonzero and otherwise keeps the parsed value. -/
theorem pool_settings_copied (prov : ConnectionProvider) (env : Env)
    (st : RegistryState) (databaseName : String) (config : PoolConfig)
    (st' : RegistryState) (c : DatabaseConnection)
    (h0 : lookupPool st.pools databaseName = none)
    (hp : env.parse (prov.connectionStringFunc databaseName) = Except.ok config)
    (hok : ConnectionProvider.Connect prov env st databaseName =
      (st', Except.ok c)) :
    st'.builtConfigs = st.builtConfigs ++ [appliedConfig prov config] ∧
    (appliedConfig prov config).MinConns = prov.poolConfig.MinConns ∧
    (appliedConfig prov config).MaxConnLifetime = prov.poolConfig.MaxConnLifetime ∧
    (appliedConfig prov config).MaxConnIdleTime = prov.poolConfig.MaxConnIdleTime ∧
    (appliedConfig prov config).AfterConnect = prov.poolConfig.AfterConnect ∧
    (prov.poolConfig.MaxConns ≠ 0 →
      (appliedConfig prov config).MaxConns = prov.poolConfig.MaxConns) ∧
    (prov.poolConfig.MaxConns = 0 →
      (appliedConfig prov config).MaxConns = config.MaxConns) := by
  obtain ⟨config2, hp2, hst, _⟩ :=
    Connect_ok_inv prov env st databaseName st' c h0 hok
  rw [hp] at hp2
  injection hp2 with hp2
  subst hp2
  subst hst
  refine ⟨rfl, rfl, rfl, rfl, rfl, ?_, ?_⟩
  · intro h
    simp [appliedConfig, h]
  · intro h
    simp [appliedConfig, h]

theorem pool_settings_copied_witness :
    (buildSuccessState provW RegistryState.initial "postgres"
      PoolConfig.zero).builtConfigs = [appliedConfig provW PoolConfig.zero] ∧
    (appliedConfig provW PoolConfig.zero).MaxConns = PoolConfig.zero.MaxConns := by
  have h := pool_settings_copied provW okEnv RegistryState.initial "postgres"
    PoolConfig.zero
    (buildSuccessState provW RegistryState.initial "postgres" PoolConfig.zero)
    { Pool := 0, tracked := true, dbName := "postgres" } rfl rfl (by rfl)
  exact ⟨h.1, h.2.2.2.2.2.2 rfl⟩

theorem mem_closeInsert_self (l : List Nat) (x : Nat) : x ∈ closeInsert l x :=
  (mem_closeInsert l x x).mpr (Or.inl rfl)

theorem closeInsert_closeInsert (l : List Nat) (x : Nat) :
    closeInsert (closeInsert l x) x = closeInsert l x :=
  closeInsert_of_mem _ _ (mem_closeInsert_self l x)

theorem mapDelete_mapDelete (l : List (String × Nat)) (name : String) :
    mapDelete (mapDelete l name) name = mapDelete l name :=
  mapDelete_of_lookup_none _ _ (lookupPool_mapDelete l name)

/-- C5: Close on the handle returned by a successful first-time Connect
closes the bound pool, removes the map entry for the database name, and
returns nil; an immediately following Connect for the same name misses the
registry and constructs a fresh pool distinct from the closed one. -/
theorem close_frees_entry_and_reconnect_rebuilds (prov : ConnectionProvider)
    (env : Env) (st : RegistryState) (databaseName : String) (config : PoolConfig)
    (hp : env.parse (prov.connectionStringFunc databaseName) = Except.ok config)
    (hv : ¬(prov.poolConfig.MaxConns ≠ 0 ∧ prov.poolConfig.MaxConns < 1))
    (hc : ∀ c, env.connectConfig c = Except.ok ())
    (hg : env.ping = Except.ok ())
    (h0 : lookupPool st.pools databaseName = none) :
    ConnectionProvider.Connect prov env st databaseName =
      (buildSuccessState prov st databaseName config,
       Except.ok { Pool := st.nextPoolId, tracked := true, dbName := databaseName }) ∧
    DatabaseConnection.Close
      { Pool := st.nextPoolId, tracked := true, dbName := databaseName }
      (buildSuccessState prov st databaseName config) =
      (closedState prov st databaseName config, none) ∧
    lookupPool (closedState prov st databaseName config).pools databaseName = none ∧
    st.nextPoolId ∈ (closedState prov st databaseName config).closedPools ∧
    ConnectionProvider.Connect prov env (closedState prov st databaseName config)
      databaseName =
      (buildSuccessState prov (closedState prov st databaseName config)
        databaseName config,
       Except.ok { Pool := (closedState prov st databaseName config).nextPoolId,
                   tracked := true, dbName := databaseName }) ∧
    (closedState prov st databaseName config).nextPoolId ≠ st.nextPoolId ∧
    (buildSuccessState prov (closedState prov st databaseName config)
      databaseName config).constructions =
      (closedState prov st databaseName config).constructions + 1 := by
  refine ⟨Connect_ok_of_envSuccess prov env st databaseName config hp hv hc hg h0,
    ?_, ?_, ?_, ?_, ?_, ?_⟩
  · simp [DatabaseConnection.Close, buildSuccessState, closedState]
  · exact lookupPool_mapDelete _ _
  · exact mem_closeInsert_self _ _
  · exact Connect_ok_of_envSuccess prov env _ databaseName config hp hv hc hg
      (lookupPool_mapDelete _ _)
  · exact Nat.succ_ne_self st.nextPoolId
  · rfl

theorem close_frees_entry_and_reconnect_rebuilds_witness :
    lookupPool (closedState provW RegistryState.initial "postgres"
      PoolConfig.zero).pools "postgres" = none ∧
    0 ∈ (closedState provW RegistryState.initial "postgres"
      PoolConfig.zero).closedPools ∧
    (closedState provW RegistryState.initial "postgres"
      PoolConfig.zero).nextPoolId ≠ 0 := by
  have h := close_frees_entry_and_reconnect_rebuilds provW okEnv
    RegistryState.initial "postgres" PoolConfig.zero rfl (by decide)
    (fun c => rfl) rfl rfl
  exact ⟨h.2.2.1, h.2.2.2.1, h.2.2.2.2.2.1⟩

/-- C6: Close on a handle never returns an error, calling it a second time
changes nothing further (no double release: the closed-pool set and the map
are unchanged by the repeat call), and a Close whose registry entry is
already absent and whose pool is already closed is a complete no-op. -/
theorem connection_close_idempotent (c : DatabaseConnection)
    (st : RegistryState) :
    (DatabaseConnection.Close c st).2 = none ∧
    DatabaseConnection.Close c (DatabaseConnection.Close c st).1 =
      ((DatabaseConnection.Close c st).1, none) ∧
    (lookupPool st.pools c.dbName = none → c.Pool ∈ st.closedPools →
      DatabaseConnection.Close c st = (st, none)) := by
  refine ⟨?_, ?_, ?_⟩
  · unfold DatabaseConnection.Close
    split <;> rfl
  · by_cases h : c.tracked = false <;>
      simp [DatabaseConnection.Close, h, closeInsert_closeInsert,
        mapDelete_mapDelete]
  · intro h1 h2
    by_cases h : c.tracked = false <;>
      simp [DatabaseConnection.Close, h, closeInsert_of_mem _ _ h2,
        mapDelete_of_lookup_none _ _ h1]

theorem connection_close_idempotent_witness :
    DatabaseConnection.Close { Pool := 3, tracked := true, dbName := "db1" }
      { RegistryState.initial with closedPools := [3] } =
      ({ RegistryState.initial with closedPools := [3] }, none) :=
  (connection_close_idempotent { Pool := 3, tracked := true, dbName := "db1" }
    { RegistryState.initial with closedPools := [3] }).2.2 rfl (by decide)

/-- C9: Close on a provider-tracked handle deletes the map entry keyed by
its database name unconditionally and returns nil, even when that entry now
refers to a different, newer pool: the newer pool's entry disappears from
the map but the newer pool itself is not closed. -/
theorem close_deletes_newer_entry (c : DatabaseConnection)
    (st : RegistryState) (q : Nat)
    (ht : c.tracked = true)
    (hq : lookupPool st.pools c.dbName = some q)
    (hne : q ≠ c.Pool)
    (hopen : q ∉ st.closedPools) :
    DatabaseConnection.Close c st =
      ({ st with closedPools := closeInsert st.closedPools c.Pool,
                 pools := mapDelete st.pools c.dbName }, none) ∧
    lookupPool (mapDelete st.pools c.dbName) c.dbName = none ∧
    c.Pool ∈ closeInsert st.closedPools c.Pool ∧
    q ∉ closeInsert st.closedPools c.Pool := by
  refine ⟨?_, lookupPool_mapDelete _ _, mem_closeInsert_self _ _, ?_⟩
  · simp [DatabaseConnection.Close, ht]
  · intro hmem
    rcases (mem_closeInsert _ _ _).mp hmem with h | h
    · exact hne h
    · exact hopen h

theorem close_deletes_newer_entry_witness :
    (1 : Nat) ∉ closeInsert ([0] : List Nat) 0 ∧
    lookupPool (mapDelete [("db", 1)] "db") "db" = none := by
  have h := close_deletes_newer_entry
    { Pool := 0, tracked := true, dbName := "db" }
    { RegistryState.initial with
        pools := [("db", 1)], nextPoolId := 2, closedPools := [0] }
    1 rfl rfl (by decide) (by decide)
  exact ⟨h.2.2.2, h.2.1⟩

theorem mem_foldl_closeInsert_of_mem_init (ids : List Nat) (l : List Nat)
    (x : Nat) (h : x ∈ l) : x ∈ List.foldl closeInsert l ids := by
  induction ids generalizing l with
  | nil => exact h
  | cons a rest ih => exact ih _ ((mem_closeInsert l a x).mpr (Or.inr h))

theorem mem_foldl_closeInsert_of_mem_list (ids : List Nat) (l : List Nat)
    (x : Nat) (h : x ∈ ids) : x ∈ List.foldl closeInsert l ids := by
  induction ids generalizing l with
  | nil => exact absurd h (List.not_mem_nil x)
  | cons a rest ih =>
    rcases List.mem_cons.mp h with rfl | h2
    · exact mem_foldl_closeInsert_of_mem_init rest _ x (mem_closeInsert_self l x)
    · exact ih _ h2

/-- C7: the provider-wide Close empties the registry map, every registered
pool has its Pool.Close invoked, the operation is idempotent and a no-op on
an empty registry, and — since distinct map entries hold distinct pools —
the sequence of Pool.Close invocations it performs has no duplicates. -/
theorem provider_close_closes_all (st : RegistryState) :
    (ConnectionProvider.Close st).pools = [] ∧
    (∀ pr ∈ st.pools, pr.2 ∈ (ConnectionProvider.Close st).closedPools) ∧
    ConnectionProvider.Close (ConnectionProvider.Close st) =
      ConnectionProvider.Close st ∧
    (st.pools = [] → ConnectionProvider.Close st = st) ∧
    (PoolIdsOk st → (ConnectionProvider.closeCalls st).Nodup) := by
  refine ⟨rfl, ?_, rfl, ?_, ?_⟩
  · intro pr hpr
    exact mem_foldl_closeInsert_of_mem_list _ _ _ (List.mem_map_of_mem _ hpr)
  · intro h
    cases st with
    | mk p npi cp csf pc bc cons =>
      have h2 : p = [] := h
      subst h2
      rfl
  · intro h
    exact h.2

theorem provider_close_closes_all_witness :
    (0 : Nat) ∈ (ConnectionProvider.Close { RegistryState.initial with
      pools := [("a", 0), ("b", 1)], nextPoolId := 2 }).closedPools ∧
    (ConnectionProvider.closeCalls { RegistryState.initial with
      pools := [("a", 0), ("b", 1)], nextPoolId := 2 }).Nodup := by
  have h := provider_close_closes_all { RegistryState.initial with
    pools := [("a", 0), ("b", 1)], nextPoolId := 2 }
  exact ⟨h.2.1 ("a", 0) (by decide), h.2.2.2.2 ⟨by decide, by decide⟩⟩

theorem foldl_applyOption_maxConns (opts : List ConnectionOption) :
    ∀ p : ConnectionProvider,
      (List.foldl applyOption p opts).poolConfig.MaxConns =
        (lastSet setsMaxConns opts).getD p.poolConfig.MaxConns := by
  induction opts with
  | nil => intro p; rfl
  | cons o rest ih =>
    intro p
    rw [List.foldl_cons, ih (applyOption p o)]
    cases hrest : lastSet setsMaxConns rest with
    | some v => simp [lastSet, hrest]
    | none => cases o <;> simp [applyOption, setsMaxConns, lastSet, hrest]

theorem foldl_applyOption_minConns (opts : List ConnectionOption) :
    ∀ p : ConnectionProvider,
      (List.foldl applyOption p opts).poolConfig.MinConns =
        (lastSet setsMinConns opts).getD p.poolConfig.MinConns := by
  induction opts with
  | nil => intro p; rfl
  | cons o rest ih =>
    intro p
    rw [List.foldl_cons, ih (applyOption p o)]
    cases hrest : lastSet setsMinConns rest with
    | some v => simp [lastSet, hrest]
    | none => cases o <;> simp [applyOption, setsMinConns, lastSet, hrest]

theorem foldl_applyOption_maxConnLifetime (opts : List ConnectionOption) :
    ∀ p : ConnectionProvider,
      (List.foldl applyOption p opts).poolConfig.MaxConnLifetime =
        (lastSet setsMaxConnLifetime opts).getD p.poolConfig.MaxConnLifetime := by
  induction opts with
  | nil => intro p; rfl
  | cons o rest ih =>
    intro p
    rw [List.foldl_cons, ih (applyOption p o)]
    cases hrest : lastSet setsMaxConnLifetime rest with
    | some v => simp [lastSet, hrest]
    | none => cases o <;> simp [applyOption, setsMaxConnLifetime, lastSet, hrest]

theorem foldl_applyOption_maxConnIdleTime (opts : List ConnectionOption) :
    ∀ p : ConnectionProvider,
      (List.foldl applyOption p opts).poolConfig.MaxConnIdleTime =
        (lastSet setsMaxConnIdleTime opts).getD p.poolConfig.MaxConnIdleTime := by
  induction opts with
  | nil => intro p; rfl
  | cons o rest ih =>
    intro p
    rw [List.foldl_cons, ih (applyOption p o)]
    cases hrest : lastSet setsMaxConnIdleTime rest with
    | some v => simp [lastSet, hrest]
    | none => cases o <;> simp [applyOption, setsMaxConnIdleTime, lastSet, hrest]

theorem foldl_applyOption_afterConnect (opts : List ConnectionOption) :
    ∀ p : ConnectionProvider,
      (List.foldl applyOption p opts).poolConfig.AfterConnect =
        (lastSet setsAfterConnect opts).getD p.poolConfig.AfterConnect := by
  induction opts with
  | nil => intro p; rfl
  | cons o rest ih =>
    intro p
    rw [List.foldl_cons, ih (applyOption p o)]
    cases hrest : lastSet setsAfterConnect rest with
    | some v => simp [lastSet, hrest]
    | none => cases o <;> simp [applyOption, setsAfterConnect, lastSet, hrest]

/-- C8: NewConnectionProvider applies options left to right and later
options overwrite earlier ones per field: each effective pool-configuration
field equals the value written by the last option of the sequence that
writes that field, or the zero default if none does. -/
theorem options_last_write_wins (csf : String → String)
    (opts : List ConnectionOption) :
    (NewConnectionProvider csf opts).poolConfig.MaxConns =
      (lastSet setsMaxConns opts).getD 0 ∧
    (NewConnectionProvider csf opts).poolConfig.MinConns =
      (lastSet setsMinConns opts).getD 0 ∧
    (NewConnectionProvider csf opts).poolConfig.MaxConnLifetime =
      (lastSet setsMaxConnLifetime opts).getD 0 ∧
    (NewConnectionProvider csf opts).poolConfig.MaxConnIdleTime =
      (lastSet setsMaxConnIdleTime opts).getD 0 ∧
    (NewConnectionProvider csf opts).poolConfig.AfterConnect =
      (lastSet setsAfterConnect opts).getD none :=
  ⟨foldl_applyOption_maxConns opts _, foldl_applyOption_minConns opts _,
   foldl_applyOption_maxConnLifetime opts _,
   foldl_applyOption_maxConnIdleTime opts _,
   foldl_applyOption_afterConnect opts _⟩

theorem poolIdsOk_buildSuccessState (prov : ConnectionProvider)
    (st : RegistryState) (databaseName : String) (config : PoolConfig)
    (hok : PoolIdsOk st) :
    PoolIdsOk (buildSuccessState prov st databaseName config) := by
  obtain ⟨hb, hnd⟩ := hok
  constructor
  · intro pr hpr
    simp only [buildSuccessState, mapInsert] at hpr
    rcases List.mem_cons.mp hpr with h2 | h2
    · rw [h2]
      exact Nat.lt_succ_self st.nextPoolId
    · exact Nat.lt_succ_of_lt (hb pr (List.mem_of_mem_filter h2))
  · simp only [buildSuccessState, mapInsert, List.map_cons]
    rw [List.nodup_cons]
    constructor
    · intro hmem
      obtain ⟨pr, hpr, hpr2⟩ := List.mem_map.mp hmem
      have := hb pr (List.mem_of_mem_filter hpr)
      rw [hpr2] at this
      exact absurd this (Nat.lt_irrefl st.nextPoolId)
    · exact hnd.sublist ((List.filter_sublist st.pools).map (fun pr => pr.2))

theorem Connect_preserves_poolIdsOk (prov : ConnectionProvider) (env : Env)
    (st : RegistryState) (databaseName : String)
    (hok : PoolIdsOk st) :
    PoolIdsOk (ConnectionProvider.Connect prov env st databaseName).1 := by
  cases hlk : lookupPool st.pools databaseName with
  | some pool =>
    rw [Connect_hit prov env st databaseName pool hlk]
    exact hok
  | none =>
    rw [Connect_miss prov env st databaseName hlk]
    cases hparse : env.parse (prov.connectionStringFunc databaseName) with
    | error u =>
      rw [connectBuild_parse_error prov env st databaseName u hparse]
      exact hok
    | ok config =>
      by_cases hv : prov.poolConfig.MaxConns ≠ 0 ∧ prov.poolConfig.MaxConns < 1
      · rw [connectBuild_maxConns_error prov env st databaseName config hparse
          hv.1 hv.2]
        exact hok
      · cases hcc : env.connectConfig (appliedConfig prov config) with
        | error u =>
          rw [connectBuild_pool_error prov env st databaseName config u hparse
            hv hcc]
          exact hok
        | ok uu =>
          cases uu
          cases hping : env.ping with
          | error u =>
            rw [connectBuild_ping_error prov env st databaseName config u hparse
              hv hcc hping]
            exact ⟨fun pr hpr => Nat.lt_succ_of_lt (hok.1 pr hpr), hok.2⟩
          | ok uu2 =>
            cases uu2
            rw [connectBuild_ok prov env st databaseName config hparse hv hcc hping]
            exact poolIdsOk_buildSuccessState prov st databaseName config hok

theorem connectionClose_preserves_poolIdsOk (c : DatabaseConnection)
    (st : RegistryState) (hok : PoolIdsOk st) :
    PoolIdsOk (DatabaseConnection.Close c st).1 := by
  unfold DatabaseConnection.Close
  split
  · exact hok
  · constructor
    · intro pr hpr
      exact hok.1 pr (List.mem_of_mem_filter hpr)
    · exact hok.2.sublist ((List.filter_sublist st.pools).map (fun pr => pr.2))

theorem providerClose_preserves_poolIdsOk (st : RegistryState) :
    PoolIdsOk (ConnectionProvider.Close st) :=
  ⟨fun pr hpr => absurd hpr (List.not_mem_nil pr), List.nodup_nil⟩

theorem sysStep_callers_length (prov : ConnectionProvider) (env : Env)
    (databaseName : String) (s : SysState) (i : Nat) :
    (sysStep prov env databaseName s i).callers.length = s.callers.length := by
  unfold sysStep
  cases s.callers.get? i with
  | none => rfl
  | some ph =>
    cases ph with
    | start =>
      cases lookupPool s.shared.pools databaseName with
      | some pool => simp [List.length_set]
      | none => simp [List.length_set]
    | missed => simp [List.length_set]
    | done r => rfl

theorem sysRun_callers_length (prov : ConnectionProvider) (env : Env)
    (databaseName : String) (sched : List Nat) :
    ∀ s : SysState,
      (sysRun prov env databaseName s sched).callers.length = s.callers.length := by
  induction sched with
  | nil => intro s; rfl
  | cons a rest ih =>
    intro s
    exact (ih (sysStep prov env databaseName s a)).trans
      (sysStep_callers_length prov env databaseName s a)

theorem sysStep_preserves_inv (prov : ConnectionProvider) (env : Env)
    (databaseName : String) (st0 : RegistryState) (config : PoolConfig)
    (hp : env.parse (prov.connectionStringFunc databaseName) = Except.ok config)
    (hv : ¬(prov.poolConfig.MaxConns ≠ 0 ∧ prov.poolConfig.MaxConns < 1))
    (hc : ∀ c, env.connectConfig c = Except.ok ())
    (hg : env.ping = Except.ok ())
    (h0 : lookupPool st0.pools databaseName = none)
    (s : SysState) (i : Nat)
    (hinv : SysInv prov env databaseName st0 config s) :
    SysInv prov env databaseName st0 config (sysStep prov env databaseName s i) := by
  unfold sysStep
  cases hget : s.callers.get? i with
  | none => exact hinv
  | some ph =>
    cases ph with
    | start =>
      rcases hinv with ⟨hsh, hall⟩ | ⟨hsh, hall⟩
      · have hlk : lookupPool s.shared.pools databaseName = none := by
          rw [hsh]; exact h0
        simp only [hlk]
        left
        refine ⟨hsh, ?_⟩
        intro ph' hph'
        rcases List.mem_or_eq_of_mem_set hph' with h | h
        · exact hall ph' h
        · exact Or.inr h
      · have hlk : lookupPool s.shared.pools databaseName = some st0.nextPoolId := by
          rw [hsh]; exact lookupPool_mapInsert st0.pools databaseName st0.nextPoolId
        simp only [hlk]
        right
        refine ⟨hsh, ?_⟩
        intro ph' hph'
        rcases List.mem_or_eq_of_mem_set hph' with h | h
        · exact hall ph' h
        · exact Or.inr (Or.inr h)
    | missed =>
      rcases hinv with ⟨hsh, hall⟩ | ⟨hsh, hall⟩
      · have hcl : connectLocked prov env s.shared databaseName =
            (buildSuccessState prov st0 databaseName config,
             Except.ok { Pool := st0.nextPoolId, tracked := true,
                         dbName := databaseName }) := by
          rw [hsh, connectLocked_miss prov env st0 databaseName h0]
          exact connectBuild_ok prov env st0 databaseName config hp hv (hc _) hg
        simp only [hcl]
        right
        refine ⟨rfl, ?_⟩
        intro ph' hph'
        rcases List.mem_or_eq_of_mem_set hph' with h | h
        · rcases hall ph' h with h2 | h2
          · exact Or.inl h2
          · exact Or.inr (Or.inl h2)
        · exact Or.inr (Or.inr h)
      · have hlk : lookupPool s.shared.pools databaseName = some st0.nextPoolId := by
          rw [hsh]; exact lookupPool_mapInsert st0.pools databaseName st0.nextPoolId
        have hcl : connectLocked prov env s.shared databaseName =
            (s.shared,
             Except.ok { Pool := st0.nextPoolId, tracked := true,
                         dbName := databaseName }) :=
          connectLocked_hit prov env s.shared databaseName st0.nextPoolId hlk
        simp only [hcl]
        right
        refine ⟨hsh, ?_⟩
        intro ph' hph'
        rcases List.mem_or_eq_of_mem_set hph' with h | h
        · exact hall ph' h
        · exact Or.inr (Or.inr h)
    | done r => exact hinv

theorem sysRun_preserves_inv (prov : ConnectionProvider) (env : Env)
    (databaseName : String) (st0 : RegistryState) (config : PoolConfig)
    (hp : env.parse (prov.connectionStringFunc databaseName) = Except.ok config)
    (hv : ¬(prov.poolConfig.MaxConns ≠ 0 ∧ prov.poolConfig.MaxConns < 1))
    (hc : ∀ c, env.connectConfig c = Except.ok ())
    (hg : env.ping = Except.ok ())
    (h0 : lookupPool st0.pools databaseName = none)
    (sched : List Nat) :
    ∀ s : SysState, SysInv prov env databaseName st0 config s →
      SysInv prov env databaseName st0 config
        (sysRun prov env databaseName s sched) := by
  induction sched with
  | nil => intro s h; exact h
  | cons a rest ih =>
    intro s h
    exact ih (sysStep prov env databaseName s a)
      (sysStep_preserves_inv prov env databaseName st0 config hp hv hc hg h0 s a h)

/-- C1: any interleaving of N concurrent Connect callers for one previously
unseen database name (each caller atomically performing its read-locked
lookup and, on a miss, the write-locked double-checked critical section)
that finishes all callers yields: every caller holds the ok handle to the
single pool st0.nextPoolId, that pool is the one registered under the name,
and exactly one pool construction happened. -/
theorem connect_concurrent_exactly_one_pool (prov : ConnectionProvider)
    (env : Env) (st0 : RegistryState) (databaseName : String)
    (config : PoolConfig) (n : Nat) (sched : List Nat)
    (hp : env.parse (prov.connectionStringFunc databaseName) = Except.ok config)
    (hv : ¬(prov.poolConfig.MaxConns ≠ 0 ∧ prov.poolConfig.MaxConns < 1))
    (hc : ∀ c, env.connectConfig c = Except.ok ())
    (hg : env.ping = Except.ok ())
    (h0 : lookupPool st0.pools databaseName = none)
    (hn : 0 < n)
    (hdone : ∀ ph ∈ (sysRun prov env databaseName
        { shared := st0, callers := List.replicate n CallerPhase.start }
        sched).callers, ∃ r, ph = CallerPhase.done r) :
    (∀ ph ∈ (sysRun prov env databaseName
        { shared := st0, callers := List.replicate n CallerPhase.start }
        sched).callers,
      ph = CallerPhase.done (Except.ok
        { Pool := st0.nextPoolId, tracked := true, dbName := databaseName })) ∧
    lookupPool (sysRun prov env databaseName
        { shared := st0, callers := List.replicate n CallerPhase.start }
        sched).shared.pools databaseName = some st0.nextPoolId ∧
    (sysRun prov env databaseName
        { shared := st0, callers := List.replicate n CallerPhase.start }
        sched).shared.constructions = st0.constructions + 1 := by
  have hinv0 : SysInv prov env databaseName st0 config
      { shared := st0, callers := List.replicate n CallerPhase.start } :=
    Or.inl ⟨rfl, fun ph hph => Or.inl (List.eq_of_mem_replicate hph)⟩
  have hinv := sysRun_preserves_inv prov env databaseName st0 config
    hp hv hc hg h0 sched _ hinv0
  have hlen : (sysRun prov env databaseName
      { shared := st0, callers := List.replicate n CallerPhase.start }
      sched).callers.length = n := by
    rw [sysRun_callers_length]
    exact List.length_replicate n CallerPhase.start
  rcases hinv with ⟨hsh, hall⟩ | ⟨hsh, hall⟩
  · exfalso
    have hne : (sysRun prov env databaseName
        { shared := st0, callers := List.replicate n CallerPhase.start }
        sched).callers ≠ [] := by
      intro hnil
      rw [hnil] at hlen
      exact absurd (hlen.symm.trans rfl) (Nat.ne_of_gt hn)
    obtain ⟨ph, hph⟩ := List.exists_mem_of_ne_nil _ hne
    obtain ⟨r, hr⟩ := hdone ph hph
    rcases hall ph hph with h2 | h2 <;> rw [h2] at hr <;>
      exact CallerPhase.noConfusion hr
  · refine ⟨?_, ?_, ?_⟩
    · intro ph hph
      obtain ⟨r, hr⟩ := hdone ph hph
      rcases hall ph hph with h2 | h2 | h2
      · rw [h2] at hr; exact CallerPhase.noConfusion hr
      · rw [h2] at hr; exact CallerPhase.noConfusion hr
      · exact h2
    · rw [hsh]
      exact lookupPool_mapInsert st0.pools databaseName st0.nextPoolId
    · rw [hsh]
      rfl

theorem connect_concurrent_exactly_one_pool_witness :
    lookupPool (sysRun provW okEnv "postgres"
      { shared := RegistryState.initial,
        callers := List.replicate 2 CallerPhase.start } [0, 0, 1]).shared.pools
      "postgres" = some 0 ∧
    (sysRun provW okEnv "postgres"
      { shared := RegistryState.initial,
        callers := List.replicate 2 CallerPhase.start }
      [0, 0, 1]).shared.constructions = 1 := by
  have hdone : ∀ ph ∈ (sysRun provW okEnv "postgres"
      { shared := RegistryState.initial,
        callers := List.replicate 2 CallerPhase.start } [0, 0, 1]).callers,
      ∃ r, ph = CallerPhase.done r := by
    intro ph hph
    have he : (sysRun provW okEnv "postgres"
        { shared := RegistryState.initial,
          callers := List.replicate 2 CallerPhase.start } [0, 0, 1]).callers =
        [CallerPhase.done (Except.ok
           { Pool := 0, tracked := true, dbName := "postgres" }),
         CallerPhase.done (Except.ok
           { Pool := 0, tracked := true, dbName := "postgres" })] := rfl
    rw [he] at hph
    rcases List.mem_cons.mp hph with h1 | h1
    · exact ⟨_, h1⟩
    · rcases List.mem_cons.mp h1 with h2 | h2
      · exact ⟨_, h2⟩
      · exact absurd h2 (List.not_mem_nil ph)
  have h := connect_concurrent_exactly_one_pool provW okEnv
    RegistryState.initial "postgres" PoolConfig.zero 2 [0, 0, 1] rfl
    (by decide) (fun c => rfl) rfl rfl (by decide) hdone
  exact ⟨h.2.1, h.2.2⟩

end PgdbtemplatePgxV4
